import Mathlib

/-!
Shallow embedding of the AmyPET core preprocessing code
(`amypet/preproc.py` and `amypet/suvr_tools.py`) and verification of the
specification claims about it.  Times and intensities are modelled as
rationals, machine integers as `Int`/`Nat`; Python/numpy exceptions are
modelled with `Except`.
-/

namespace AmyPET

/-- Python/numpy exception kinds raised by the embedded functions. -/
inductive PyErr where
  | valueError (msg : String)
  | typeError (msg : String)
  | attributeError (msg : String)
  | indexError (msg : String)
  | unboundLocalError (msg : String)
  deriving DecidableEq, Repr

/-- Result of a numpy floating-point division: a finite rational, or a
silent non-finite value (`nan` for 0/0, a signed infinity otherwise) as
numpy produces under its default error state (a runtime warning, never an
exception). -/
inductive NpVal where
  | num (q : ℚ)
  | nan
  | inf
  | ninf
  deriving DecidableEq, Repr

/-- numpy division `a / b`: for `b = 0` numpy emits a runtime warning and
yields nan (if `a = 0`) or a signed infinity; no exception is raised. -/
def npDiv (a b : ℚ) : NpVal :=
  if b = 0 then
    if a = 0 then NpVal.nan else if 0 < a then NpVal.inf else NpVal.ninf
  else NpVal.num (a / b)

/-- PET image array handed to `extract_vois`: a 3-D single volume or a 4-D
multi-frame volume, with the spatial axes flattened into one list. -/
inductive ImData where
  | vol3 (im : List ℚ)
  | vol4 (frames : List (List ℚ))
  deriving DecidableEq, Repr

/-- Sum of the image intensities under a boolean mask
(`np.sum(im[rmsk])`, suvr_tools.py line 263). -/
def maskedSum (rmsk : List Bool) (im : List ℚ) : ℚ :=
  ((rmsk.zip im).filter (fun p => p.1)).foldl (fun s p => s + p.2) 0

/-- Per-VOI output entry of `extract_vois`
(`{'vox_no': vxsum, 'sum': emsum, 'avg': emsum / vxsum}`,
suvr_tools.py line 272).  Only the 4-D branch ever completes, so `sum`
and `avg` are the per-frame vectors of that branch. -/
structure VoiOut where
  vox_no : Nat
  sum : List ℚ
  avg : List NpVal
  deriving DecidableEq, Repr

/-- One iteration of the VOI loop of `extract_vois` (suvr_tools.py lines
238-272) for the VOI with label set `voiLabels`, on the flattened label
volume `lbls` with optional external atlas mask `amsk`.  Faithful to the
source:
* `rmsk += np.equal(lbls, ri)` accumulates the union (logical OR) mask;
* line 247 reads `rmsk * amsk` - the product is computed and discarded
  (it is not `rmsk *= amsk`), so the external mask never changes `rmsk`;
* the 3-D branch is `elif im.ndims==3`, and a numpy array has no
  attribute `ndims` (the attribute is `ndim`), so every 3-D image raises
  AttributeError at that test;
* `avg` is `emsum / vxsum` under numpy division semantics (`npDiv`). -/
def extract_vois (im : ImData) (lbls : List ℚ) (amsk : Option (List Bool))
    (voiLabels : List ℚ) : Except PyErr VoiOut :=
  let rmsk := lbls.map (fun l => if l ∈ voiLabels then true else false)
  -- line 247: `rmsk * amsk` - the value is discarded, `rmsk` is unchanged
  let _discarded := amsk.map (fun a => (rmsk.zip a).map (fun p => p.1 && p.2))
  let vxsum := (rmsk.filter id).length
  match im with
  | ImData.vol4 frames =>
      let emsum := frames.map (fun f => maskedSum rmsk f)
      Except.ok { vox_no := vxsum, sum := emsum,
                  avg := emsum.map (fun s => npDiv s (vxsum : ℚ)) }
  | ImData.vol3 _ =>
      Except.error (PyErr.attributeError "numpy.ndarray object has no attribute ndims")

/-- The sampling mask as the spec (section 4.4 step 1) describes it: the
union of the label matches intersected (logical AND) with the external
mask.  This definition follows the words of the spec and is compared
against what `extract_vois` actually computes. -/
def specSamplingMask (lbls : List ℚ) (amsk : List Bool) (voiLabels : List ℚ) :
    List Bool :=
  ((lbls.map (fun l => if l ∈ voiLabels then true else false)).zip amsk).map
    (fun p => p.1 && p.2)

/-- SUVr ratio of one VOI against the reference-region average
(`suvr[rvoi][voi] = voival[voi]['avg'] / ref`, suvr_tools.py line 427):
numpy float division, so a zero reference yields a silent infinity or
nan, never an exception. -/
def suvr_ratio (voiAvg ref : ℚ) : NpVal := npDiv voiAvg ref

/-- Python `max` of a list of naturals (total, only ever used on a
nonempty list, as in the source guarded by truthiness of `frames`). -/
def pymax (l : List Nat) : Nat := l.foldl max 0

/-- `if frames and nfrm < max(frames)` (suvr_tools.py line 107):
truthiness of the `frames` argument (an empty list is falsy) combined
with the range test that triggers the ValueError. -/
def framesValueError (nfrm : Nat) (frames : Option (List Nat)) : Bool :=
  match frames with
  | some fs => !fs.isEmpty && decide (nfrm < pymax fs)
  | none => false

/-- The frame index list actually used after validation
(lines 107-110: an absent or empty list is replaced by `np.arange(nfrm)`). -/
def effFrames (nfrm : Nat) (frames : Option (List Nat)) : List Nat :=
  match frames with
  | some fs => if fs.isEmpty then List.range nfrm else fs
  | none => List.range nfrm

/-- Voxel-wise sum of a list of frames. -/
def vecSum (l : List (List ℚ)) : List ℚ :=
  match l with
  | [] => []
  | x :: xs => xs.foldl (fun a b => List.zipWith (fun p q => p + q) a b) x

/-- `np.sum(imdct['im'][frames, ...], axis=0)` (suvr_tools.py line 122):
numpy fancy indexing raises IndexError when any index is out of bounds;
otherwise the selected frames are summed voxel-wise. -/
def sumFrames (im : List (List ℚ)) (frames : List Nat) :
    Except PyErr (List ℚ) :=
  if frames.all (fun i => i < im.length) then
    Except.ok (vecSum (frames.map (fun i => im.getD i [])))
  else
    Except.error (PyErr.indexError "index is out of bounds for axis 0")

/-- Result record returned by `preproc_suvr` (suvr_tools.py line 139). -/
structure PreprocOut where
  fpet_nii : String
  fsuvr : String
  fcom : String
  deriving DecidableEq, Repr

/-- Static-image part of `preproc_suvr` (suvr_tools.py lines 114-139),
entered after frame validation.  Faithful to the source: the whole
compute block (summation, file write, centre-of-mass correction) runs
only when the static file is absent or `force` is set; `fsuvr_com` is
assigned only inside the `if com_correction:` branch, yet line 139
returns `fsuvr_com['fim']`, so every path that skips that branch raises
UnboundLocalError at the return statement. -/
def preproc_suvr_static (im : List (List ℚ)) (frames : List Nat)
    (fstat_exists force com_correction : Bool) : Except PyErr PreprocOut :=
  let nfrm := im.length
  if !fstat_exists || force then
    match (if 1 < nfrm then sumFrames im frames else Except.ok (im.headD [])) with
    | Except.error e => Except.error e
    | Except.ok _imstat =>
      let fsuvr_com : Option String :=
        if com_correction then some "fcom" else none
      match fsuvr_com with
      | some c => Except.ok { fpet_nii := "fpet_nii", fsuvr := "fstat", fcom := c }
      | none => Except.error (PyErr.unboundLocalError "fsuvr_com")
  else
    -- cache hit: the compute block is skipped, `fsuvr_com` was never
    -- assigned and line 139 raises UnboundLocalError
    Except.error (PyErr.unboundLocalError "fsuvr_com")

/-- Embedding of `preproc_suvr` from the point where the image has been
read (suvr_tools.py lines 101-139).  `im` is the list of frames (so
`nfrm = im.length`, the header frame count), `frames` the optional
requested frame index list, `fstat_exists` whether the static output file
already exists, and `force`/`com_correction` the flags of the source. -/
def preproc_suvr (im : List (List ℚ)) (frames : Option (List Nat))
    (fstat_exists force com_correction : Bool) : Except PyErr PreprocOut :=
  let nfrm := im.length
  if framesValueError nfrm frames then
    Except.error (PyErr.valueError "The selected frames do not exist")
  else
    preproc_suvr_static im (effFrames nfrm frames) fstat_exists force com_correction

/-- Observable outcome of one `align_suvr` call: counts of external calls
made, whether the output directory was purged, and the returned value. -/
structure AlignOut where
  regCalls : Nat
  convCalls : Nat
  purged : Bool
  result : Except PyErr String
  deriving Repr

/-- Embedding of the caching control flow of `align_suvr` (preproc.py
lines 309-456).  `faligned` names the deterministic output path
`SUVr_aligned_<series>.nii.gz`, `nfrms` the number of selected frames.
On the recompute branch (`reg_force or not faligned.is_file()`) the
output directory is purged, each frame is converted once and every
unordered frame pair is registered twice (2 * C(nfrms,2) = nfrms*(nfrms-1)
calls), assigning the motion matrix `R` and affine table `S`.  On the
cache-hit branch nothing runs, but line 456 still executes
`return dict(fpet=faligned, Metric=R, faff=S, ...)` with `R` (and `S`)
unbound, raising UnboundLocalError. -/
def align_suvr (faligned : String) (faligned_exists reg_force : Bool)
    (nfrms : Nat) : AlignOut :=
  if reg_force || !faligned_exists then
    { regCalls := nfrms * (nfrms - 1), convCalls := nfrms, purged := true,
      result := Except.ok faligned }
  else
    { regCalls := 0, convCalls := 0, purged := false,
      result := Except.error (PyErr.unboundLocalError "R") }

/-- SUVr time window post injection and duration per tracer
(preproc.py lines 34-37). -/
inductive Tracer where
  | flute
  | fbb
  | fbp
  deriving DecidableEq, Repr

/-- `suvr_twindow` (preproc.py lines 34-37): `[t_start, t_stop, duration]`
of the default SUVr window, in seconds. -/
def suvr_twindow : Tracer → ℚ × ℚ × ℚ
  | Tracer.flute => (90 * 60, 110 * 60, 1200)
  | Tracer.fbb => (90 * 60, 110 * 60, 1200)
  | Tracer.fbp => (50 * 60, 60 * 60, 600)

/-- Tolerance margin (preproc.py line 38). -/
def margin : ℚ := 1 / 10

/-- Target break time of the coffee-break protocol (preproc.py line 48). -/
def break_time : ℚ := 1800

/-- Time window for the first coffee-break acquisition
(preproc.py line 51). -/
def breakdyn_t : ℚ × ℚ := (1200, 2400)

/-- Minimum duration of a full dynamic acquisition (preproc.py line 54). -/
def fulldyn_time : ℚ := 3600

/-- Acquisition kind assigned by the temporal classifier. -/
inductive AcqKind where
  | static
  | breakdyn
  | fulldyn
  deriving DecidableEq, Repr

/-- Classification of the acquisition kind (preproc.py lines 160-167)
from the first frame start `t0 = t_frms[0][0]` and the last frame stop
`tl = t_frms[-1][-1]`, both in seconds post injection.  `none` models the
`acq_type = None` left by the fall-through cases. -/
def acq_type (t0 tl : ℚ) : Option AcqKind :=
  if t0 < 1 then
    if breakdyn_t.1 < tl ∧ tl ≤ breakdyn_t.2 then some AcqKind.breakdyn
    else if fulldyn_time ≤ tl then some AcqKind.fulldyn
    else none
  else if 1 < t0 then some AcqKind.static
  else none

/-- Python `abs` on a rational. -/
def rabs (q : ℚ) : ℚ := if q < 0 then -q else q

/-- Python `list.index(v)`: position of the first occurrence of `v`
(only ever called on a member, as in the source where `v` was just
returned by `min`; Python raises ValueError otherwise, here the list
length is returned). -/
def pyIndex : List ℚ → ℚ → Nat
  | [], _ => 0
  | x :: xs, v => if x = v then 0 else pyIndex xs v + 1

/-- Python `min(xs, key=f)`: the first element of `xs` attaining the
minimal key, obtained by scanning left to right and replacing the current
best only on a strictly smaller key (`none` on an empty list, where
Python raises). -/
def pyMin (f : ℚ → ℚ) : List ℚ → Option ℚ
  | [] => none
  | [x] => some x
  | x :: y :: ys =>
    match pyMin f (y :: ys) with
    | some w => some (if f w < f x then w else x)
    | none => some x

/-- Nearest-match frame selection as the source composes it
(preproc.py lines 208-212 and 236-240): pick the timestamp of minimal
absolute difference to the target with Python `min(.., key=..)`, then
find its position with `list.index` (first occurrence, `pyIndex`). -/
def nearestIdx (xs : List ℚ) (t : ℚ) : Nat :=
  match pyMin (fun x => rabs (x - t)) xs with
  | some v => pyIndex xs v
  | none => 0

/-- A classification descriptor appended to `msrs_class`
(preproc.py lines 214-264): the `acq` tag list, the selected `time`
window, the inclusive frame index range `idxs`, and whether the coverage
warning of line 223 was emitted. -/
structure ClassOut where
  acq : List String
  time : ℚ × ℚ
  idxs : Nat × Nat
  coverageWarn : Bool
  deriving DecidableEq, Repr

/-- Per-series classification and frame selection of `explore_input`
(preproc.py lines 143-264), taking the frame timings `t_frms` (pairs of
start/stop seconds post injection, already time-sorted) and the
user-given SUVr window `suvr_win_def`.  Faithful to the source:
* an empty series fails at `t_frms[-1]` (line 153) with IndexError;
* for a static acquisition the coverage check of line 200 subscripts
  `suvr_win_def` before the `if suvr_win_def is None` test of line 203
  ever runs, so a missing user window raises TypeError - the
  tracer-default branch of line 204 is unreachable on the static path;
* inside the covered case the window used is therefore always the
  user-given one, and the frames nearest to its bounds are selected;
* otherwise the coverage warning is emitted and the whole frame range
  `(0, len(t_frms)-1)` is used;
* `breakdyn`/`fulldyn` select the frames nearest to `[0, break_time]`
  and `[0, fulldyn_time]` respectively;
* an unclassified series (`acq_type is None`) appends nothing, modelled
  as `Except.ok none`. -/
def classifySeries (t_frms : List (ℚ × ℚ)) (suvr_win_def : Option (ℚ × ℚ)) :
    Except PyErr (Option ClassOut) :=
  match t_frms with
  | [] => Except.error (PyErr.indexError "list index out of range")
  | f0 :: rest =>
    let frms := f0 :: rest
    let t_starts := frms.map Prod.fst
    let t_stops := frms.map Prod.snd
    let tl := (frms.getLast (List.cons_ne_nil f0 rest)).2
    match acq_type f0.1 tl with
    | some AcqKind.static =>
      match suvr_win_def with
      | none =>
        -- line 200: `suvr_win_def[0]` with `suvr_win_def = None`
        Except.error (PyErr.typeError "NoneType object is not subscriptable")
      | some w =>
        if f0.1 > w.1 * (1 - margin) ∧ tl < w.2 * (1 + margin) then
          let t0_suvr := (pyMin (fun x => rabs (x - w.1)) t_starts).getD 0
          let t1_suvr := (pyMin (fun x => rabs (x - w.2)) t_stops).getD 0
          Except.ok (some
            { acq := ["static", "suvr"]
              time := (t0_suvr, t1_suvr)
              idxs := (pyIndex t_starts t0_suvr, pyIndex t_stops t1_suvr)
              coverageWarn := false })
        else
          Except.ok (some
            { acq := ["static"]
              time := (f0.1, tl)
              idxs := (0, frms.length - 1)
              coverageWarn := true })
    | some AcqKind.breakdyn =>
      let t0_dyn := (pyMin (fun x => rabs (x - 0)) t_starts).getD 0
      let t1_dyn := (pyMin (fun x => rabs (x - break_time)) t_stops).getD 0
      Except.ok (some
        { acq := ["breakdyn"]
          time := (t0_dyn, t1_dyn)
          idxs := (pyIndex t_starts t0_dyn, pyIndex t_stops t1_dyn)
          coverageWarn := false })
    | some AcqKind.fulldyn =>
      let t0_dyn := (pyMin (fun x => rabs (x - 0)) t_starts).getD 0
      let t1_dyn := (pyMin (fun x => rabs (x - fulldyn_time)) t_stops).getD 0
      Except.ok (some
        { acq := ["fulldyn"]
          time := (t0_dyn, t1_dyn)
          idxs := (pyIndex t_starts t0_dyn, pyIndex t_stops t1_dyn)
          coverageWarn := false })
    | none => Except.ok none

/-- Python `timedelta.seconds` for a whole-second timedelta of `x`
seconds: the normalized seconds component, `x mod 86400` (always in
`[0, 86400)`, also for negative timedeltas). -/
def tdSeconds (x : Int) : Int := x % 86400

/-- Frame timing computation of `explore_input` (preproc.py lines
143-147): each frame is `(acqOffset, duration)` in whole seconds, where
`acqOffset = acq_datetime - radio_start_time`; the code forms the two
timedeltas and takes `.seconds` of each, so both components pass through
`tdSeconds`. -/
def frame_timings (l : List (Int × Int)) : List (Int × Int) :=
  l.map (fun p => (tdSeconds p.1, tdSeconds (p.1 + p.2)))

/-! ## Helper lemmas -/

theorem pyMin_cons_isSome (f : ℚ → ℚ) (x : ℚ) (xs : List ℚ) :
    (pyMin f (x :: xs)).isSome := by
  cases xs with
  | nil => simp [pyMin]
  | cons y ys => cases h : pyMin f (y :: ys) <;> simp [pyMin, h]

theorem pyIndex_lt_length {v : ℚ} :
    ∀ {xs : List ℚ}, v ∈ xs → pyIndex xs v < xs.length := by
  intro xs
  induction xs with
  | nil => simp
  | cons x xs ih =>
    intro hv
    by_cases hx : x = v
    · simp [pyIndex, hx]
    · have : v ∈ xs := by
        rcases List.mem_cons.mp hv with h | h
        · exact absurd h.symm hx
        · exact h
      simp only [pyIndex, if_neg hx, List.length_cons]
      exact Nat.succ_lt_succ (ih this)

theorem pyIndex_getD {v : ℚ} :
    ∀ {xs : List ℚ}, v ∈ xs → xs.getD (pyIndex xs v) 0 = v := by
  intro xs
  induction xs with
  | nil => simp
  | cons x xs ih =>
    intro hv
    by_cases hx : x = v
    · simp [pyIndex, hx]
    · have : v ∈ xs := by
        rcases List.mem_cons.mp hv with h | h
        · exact absurd h.symm hx
        · exact h
      simp only [pyIndex, if_neg hx, List.getD_cons_succ]
      exact ih this

theorem pyMin_spec (f : ℚ → ℚ) :
    ∀ (xs : List ℚ) (v : ℚ), pyMin f xs = some v →
      v ∈ xs ∧ (∀ y ∈ xs, f v ≤ f y) ∧
      ∀ j, j < pyIndex xs v → f v < f (xs.getD j 0) := by
  intro xs
  induction xs with
  | nil => intro v h; simp [pyMin] at h
  | cons x xs ih =>
    intro v h
    cases xs with
    | nil =>
      simp only [pyMin, Option.some.injEq] at h
      subst h
      refine ⟨by simp, by simp, ?_⟩
      intro j hj
      simp [pyIndex] at hj
    | cons y ys =>
      cases hw : pyMin f (y :: ys) with
      | none =>
        have := pyMin_cons_isSome f y ys
        rw [hw] at this
        simp at this
      | some w =>
        rw [pyMin, hw] at h
        simp only [Option.some.injEq] at h
        obtain ⟨hmem, hmin, hfirst⟩ := ih w hw
        by_cases hlt : f w < f x
        · rw [if_pos hlt] at h
          have hxw : x ≠ w := by
            intro hxw
            rw [hxw] at hlt
            exact absurd hlt (lt_irrefl _)
          subst h
          refine ⟨List.mem_cons_of_mem x hmem, ?_, ?_⟩
          · intro z hz
            rcases List.mem_cons.mp hz with h | h
            · rw [h]; exact le_of_lt hlt
            · exact hmin z h
          · intro j hj
            rw [pyIndex, if_neg hxw] at hj
            cases j with
            | zero => simpa using hlt
            | succ k =>
              rw [List.getD_cons_succ]
              exact hfirst k (Nat.lt_of_succ_lt_succ hj)
        · rw [if_neg hlt] at h
          subst h
          refine ⟨List.mem_cons_self x (y :: ys), ?_, ?_⟩
          · intro z hz
            rcases List.mem_cons.mp hz with h | h
            · rw [h]
            · exact le_trans (le_of_not_lt hlt) (hmin z h)
          · intro j hj
            rw [pyIndex, if_pos rfl] at hj
            exact absurd hj (Nat.not_lt_zero j)

theorem preproc_suvr_static_no_valueError (im : List (List ℚ))
    (frames : List Nat) (e f c : Bool) (m : String) :
    preproc_suvr_static im frames e f c ≠ Except.error (PyErr.valueError m) := by
  unfold preproc_suvr_static
  split
  · by_cases hn : 1 < im.length
    · simp only [if_pos hn]
      cases h : sumFrames im frames with
      | error r =>
        have hr : r = PyErr.indexError "index is out of bounds for axis 0" := by
          unfold sumFrames at h
          split at h <;> simp_all
        subst hr
        simp
      | ok r =>
        cases c <;> simp
    · simp only [if_neg hn]
      cases c <;> simp
  · simp

/-! ## Claim theorems -/

/-- C3: for every 3-D (single-frame) volume and every VOI, `extract_vois`
never returns the masked intensity sum and average: the branch
`elif im.ndims==3` raises AttributeError (`ndims` is not a numpy array
attribute), so every 3-D input fails instead of producing
sum 10 / average 2.5 for the mask over `[1, 2, 3, 4]`. -/
theorem extract_vois_vol3_attributeError :
    ∀ (im lbls : List ℚ) (amsk : Option (List Bool)) (voiLabels : List ℚ),
      extract_vois (ImData.vol3 im) lbls amsk voiLabels
        = Except.error
            (PyErr.attributeError "numpy.ndarray object has no attribute ndims") := by
  intro im lbls amsk voiLabels
  rfl

/-- C2: a VOI whose mask matches zero voxels is not reported as an error:
`extract_vois` returns successfully with `avg = emsum / 0 = nan`
(numpy emits only a warning), and a zero reference-region average in
`voi_process` yields a silent infinity instead of a raised division
error (ratio 2/1 = 2 is the normal case). -/
theorem extract_vois_div_zero_silent :
    extract_vois (ImData.vol4 [[1, 2]]) [1, 1] none [2]
        = Except.ok { vox_no := 0, sum := [0], avg := [NpVal.nan] }
      ∧ suvr_ratio 2 0 = NpVal.inf
      ∧ suvr_ratio 2 1 = NpVal.num 2 := by
  refine ⟨?_, ?_, ?_⟩
  · norm_num [extract_vois, maskedSum, npDiv]
  · norm_num [suvr_ratio, npDiv]
  · norm_num [suvr_ratio, npDiv]

/-- C4: the external atlas mask is *not* applied: on labels `[1, 1]`,
external mask `[true, false]` and VOI label set `{1}`, the code counts
2 voxels and sums both intensities (5 and 7), because line 247 computes
`rmsk * amsk` and discards the result; the mask the spec describes
(union AND external) has 1 voxel and masked sum 5. -/
theorem extract_vois_mask_not_applied :
    extract_vois (ImData.vol4 [[5, 7]]) [1, 1] (some [true, false]) [1]
        = Except.ok { vox_no := 2, sum := [12], avg := [NpVal.num 6] }
      ∧ specSamplingMask [1, 1] [true, false] [1] = [true, false]
      ∧ (([true, false].filter id).length = 1
          ∧ maskedSum [true, false] [5, 7] = 5) := by
  refine ⟨?_, ?_, by norm_num [maskedSum], ?_⟩
  · norm_num [extract_vois, maskedSum, npDiv]
  · norm_num [specSamplingMask]
  · norm_num [maskedSum]

/-- C5: a second `align_suvr` run with the aligned file present and no
force flag performs zero registration and conversion calls and does not
purge the output directory, but instead of returning a handle to the
existing aligned file it raises UnboundLocalError: the returned dict
references the motion matrix `R` (and affine table `S`), which are
assigned only on the recompute branch. -/
theorem align_suvr_cache_hit :
    ∀ (faligned : String) (nfrms : Nat),
      align_suvr faligned true false nfrms
        = { regCalls := 0, convCalls := 0, purged := false,
            result := Except.error (PyErr.unboundLocalError "R") } := by
  intro faligned nfrms
  rfl

/-- C10: whenever the centre-of-mass branch is not executed - the
cache-hit path (static file exists and `force` is off) or the recompute
path with `com_correction` off - `preproc_suvr` reaches its return
statement with `fsuvr_com` unassigned and raises UnboundLocalError
instead of returning the result dictionary. -/
theorem preproc_suvr_com_unbound (im : List (List ℚ))
    (frames : Option (List Nat)) (e f c : Bool)
    (hval : framesValueError im.length frames = false)
    (hskip : (e = true ∧ f = false) ∨
      (c = false ∧ (effFrames im.length frames).all
        (fun i => i < im.length) = true)) :
    preproc_suvr im frames e f c
      = Except.error (PyErr.unboundLocalError "fsuvr_com") := by
  rw [preproc_suvr]
  simp only [hval, Bool.false_eq_true, if_false]
  rcases hskip with ⟨he, hf⟩ | ⟨hc, hall⟩
  · subst he; subst hf
    rfl
  · subst hc
    unfold preproc_suvr_static
    split
    · by_cases hn : 1 < im.length
      · simp only [if_pos hn]
        have hsum : sumFrames im (effFrames im.length frames)
            = Except.ok (vecSum
                ((effFrames im.length frames).map (fun i => im.getD i []))) := by
          unfold sumFrames
          simp [hall]
        rw [hsum]
        rfl
      · simp only [if_neg hn]
        rfl
    · rfl

/-- C10 witness: the documented cache-skip call (file exists, no force)
on a one-frame image raises UnboundLocalError. -/
theorem preproc_suvr_com_unbound_witness :
    framesValueError ([[(1 : ℚ)]].length) none = false ∧
    preproc_suvr [[(1 : ℚ)]] none true false true
      = Except.error (PyErr.unboundLocalError "fsuvr_com") :=
  ⟨rfl, preproc_suvr_com_unbound _ _ _ _ _ rfl (Or.inl ⟨rfl, rfl⟩)⟩

/-- C9 counterexample: with 4 frames and requested frames `[4]`, index 4
is out of range (valid indices are 0..3) yet `nfrm < max(frames)` is
`4 < 4 = False`, so no ValueError is raised before computation and the
out-of-range index reaches the frame-summation step, which fails with
IndexError - refuting the claimed equivalence. -/
theorem preproc_suvr_boundary_no_validation :
    framesValueError ([[(1 : ℚ)], [1], [1], [1]].length) (some [4]) = false ∧
    preproc_suvr [[(1 : ℚ)], [1], [1], [1]] (some [4]) false true true
      = Except.error (PyErr.indexError "index is out of bounds for axis 0") :=
  ⟨rfl, rfl⟩

/-- C9 amended: the pre-computation ValueError is raised exactly when the
requested frames list is nonempty and its maximum *strictly exceeds* the
frame count `nfrm`; an index equal to `nfrm` (out of range for 0-based
indexing) passes validation and reaches the summation step. -/
theorem preproc_suvr_valueError_iff :
    ∀ (im : List (List ℚ)) (frames : Option (List Nat)) (e f c : Bool),
      preproc_suvr im frames e f c
          = Except.error (PyErr.valueError "The selected frames do not exist")
        ↔ framesValueError im.length frames = true := by
  intro im frames e f c
  rw [preproc_suvr]
  constructor
  · intro h
    by_contra hval
    rw [Bool.not_eq_true] at hval
    rw [hval] at h
    simp only [Bool.false_eq_true, if_false] at h
    exact preproc_suvr_static_no_valueError _ _ _ _ _ _ h
  · intro hval
    rw [hval]
    rfl

/-- C6: the temporal classifier assigns the kind exactly by the threshold
rule of preproc.py lines 160-167: `breakdyn` iff `t0 < 1` and
`tl ∈ (1200, 2400]`, `fulldyn` iff `t0 < 1` and `tl ≥ 3600`, `static`
iff `t0 > 1`, and in every remaining case (`t0 = 1`, or `t0 < 1` with
`tl ≤ 1200` or `tl ∈ (2400, 3600)`) the kind stays undetermined. -/
theorem acq_type_threshold_cases :
    ∀ t0 tl : ℚ,
      (acq_type t0 tl = some AcqKind.breakdyn ↔ t0 < 1 ∧ 1200 < tl ∧ tl ≤ 2400)
      ∧ (acq_type t0 tl = some AcqKind.fulldyn ↔ t0 < 1 ∧ 3600 ≤ tl)
      ∧ (acq_type t0 tl = some AcqKind.static ↔ 1 < t0)
      ∧ (acq_type t0 tl = none ↔
          (t0 = 1 ∨ (t0 < 1 ∧ tl ≤ 1200) ∨ (t0 < 1 ∧ 2400 < tl ∧ tl < 3600))) := by
  intro t0 tl
  have hdef : acq_type t0 tl =
      (if t0 < 1 then
        if 1200 < tl ∧ tl ≤ 2400 then some AcqKind.breakdyn
        else if (3600 : ℚ) ≤ tl then some AcqKind.fulldyn
        else none
      else if 1 < t0 then some AcqKind.static
      else none) := rfl
  rw [hdef]
  by_cases h1 : t0 < 1
  · by_cases h2 : 1200 < tl ∧ tl ≤ 2400
    · rw [if_pos h1, if_pos h2]
      refine ⟨iff_of_true rfl ⟨h1, h2.1, h2.2⟩, ?_, ?_, ?_⟩
      · exact iff_of_false (by simp) (by rintro ⟨-, h⟩; linarith [h2.2])
      · exact iff_of_false (by simp) (by intro h; linarith)
      · exact iff_of_false (by simp)
          (by rintro (h | ⟨-, h⟩ | ⟨-, h, -⟩) <;> linarith [h2.1, h2.2])
    · by_cases h3 : (3600 : ℚ) ≤ tl
      · rw [if_pos h1, if_neg h2, if_pos h3]
        refine ⟨?_, iff_of_true rfl ⟨h1, h3⟩, ?_, ?_⟩
        · exact iff_of_false (by simp) (by rintro ⟨-, hb, hc⟩; exact h2 ⟨hb, hc⟩)
        · exact iff_of_false (by simp) (by intro h; linarith)
        · exact iff_of_false (by simp)
            (by rintro (h | ⟨-, h⟩ | ⟨-, -, h⟩) <;> linarith)
      · rw [if_pos h1, if_neg h2, if_neg h3]
        refine ⟨?_, ?_, ?_, ?_⟩
        · exact iff_of_false (by simp) (by rintro ⟨-, hb, hc⟩; exact h2 ⟨hb, hc⟩)
        · exact iff_of_false (by simp) (by rintro ⟨-, h⟩; exact h3 h)
        · exact iff_of_false (by simp) (by intro h; linarith)
        · apply iff_of_true rfl
          by_cases hb : 1200 < tl
          · refine Or.inr (Or.inr ⟨h1, ?_, lt_of_not_le h3⟩)
            by_contra hc
            exact h2 ⟨hb, le_of_not_lt hc⟩
          · exact Or.inr (Or.inl ⟨h1, le_of_not_lt hb⟩)
  · by_cases h4 : 1 < t0
    · rw [if_neg h1, if_pos h4]
      refine ⟨?_, ?_, iff_of_true rfl h4, ?_⟩
      · exact iff_of_false (by simp) (by rintro ⟨h, -⟩; exact h1 h)
      · exact iff_of_false (by simp) (by rintro ⟨h, -⟩; exact h1 h)
      · exact iff_of_false (by simp)
          (by rintro (h | ⟨h, -⟩ | ⟨h, -, -⟩) <;> linarith)
    · rw [if_neg h1, if_neg h4]
      have ht : t0 = 1 := le_antisymm (le_of_not_lt h4) (le_of_not_lt h1)
      refine ⟨?_, ?_, ?_, iff_of_true rfl (Or.inl ht)⟩
      · exact iff_of_false (by simp) (by rintro ⟨h, -⟩; exact h1 h)
      · exact iff_of_false (by simp) (by rintro ⟨h, -⟩; exact h1 h)
      · exact iff_of_false (by simp) h4

/-- C7: nearest-match frame selection (`min(.., key=abs diff)` followed by
`list.index`) returns an in-range index whose timestamp minimises the
absolute difference to the target, every strictly earlier index having a
strictly larger difference (first-index tie-break); and on
`t_starts = [0, 600, 1200, 1800]` with target `650` it selects index 1,
not 2. -/
theorem nearest_frame_selection :
    (∀ (xs : List ℚ) (t : ℚ), xs ≠ [] →
      nearestIdx xs t < xs.length
      ∧ (∀ j, j < xs.length →
          rabs (xs.getD (nearestIdx xs t) 0 - t) ≤ rabs (xs.getD j 0 - t))
      ∧ (∀ j, j < nearestIdx xs t →
          rabs (xs.getD (nearestIdx xs t) 0 - t) < rabs (xs.getD j 0 - t)))
    ∧ nearestIdx [0, 600, 1200, 1800] 650 = 1 := by
  constructor
  · intro xs t hne
    obtain ⟨v, hv⟩ : ∃ v, pyMin (fun x => rabs (x - t)) xs = some v := by
      cases xs with
      | nil => exact absurd rfl hne
      | cons x l =>
        exact Option.isSome_iff_exists.mp (pyMin_cons_isSome (fun x => rabs (x - t)) x l)
    obtain ⟨hmem, hmin, hfirst⟩ := pyMin_spec (fun x => rabs (x - t)) xs v hv
    have hidx : nearestIdx xs t = pyIndex xs v := by rw [nearestIdx, hv]
    have hget : xs.getD (pyIndex xs v) 0 = v := pyIndex_getD hmem
    refine ⟨?_, ?_, ?_⟩
    · rw [hidx]
      exact pyIndex_lt_length hmem
    · intro j hj
      rw [hidx, hget]
      have hjmem : xs.getD j 0 ∈ xs := by
        rw [List.getD_eq_getElem xs 0 hj]
        exact List.getElem_mem hj
      exact hmin _ hjmem
    · intro j hj
      rw [hidx] at hj ⊢
      rw [hget]
      exact hfirst j hj
  · norm_num [nearestIdx, pyMin, rabs, pyIndex]

/-- C7 witness: the general part applied to the concrete frame starts
`[0, 600, 1200, 1800]` and target `650`. -/
theorem nearest_frame_selection_witness :
    nearestIdx [0, 600, 1200, 1800] 650 < ([0, 600, 1200, 1800] : List ℚ).length :=
  (nearest_frame_selection.1 [0, 600, 1200, 1800] 650 (by simp)).1

/-- C8 counterexample: for the frame set with administration-relative
start offsets `-10, 10, 300` seconds and durations `5, 2000, 10` the
start times increase strictly, yet the derived timing pairs are not
non-decreasing: `timedelta.seconds` wraps the pre-administration frame
to `(86390, 86395)`, and the stop of the long second frame (2010)
exceeds the stop of the third (310). -/
theorem frame_timings_not_monotone :
    List.Chain' (fun a b => a.1 < b.1) [((-10 : Int), 5), (10, 2000), (300, 10)]
    ∧ ¬ List.Chain' (fun a b => a.1 ≤ b.1 ∧ a.2 ≤ b.2)
        (frame_timings [((-10 : Int), 5), (10, 2000), (300, 10)]) := by
  norm_num [frame_timings, tdSeconds, List.chain'_cons]

/-- C8 amended: for frame sets whose start offsets increase strictly,
whose frames do not overlap (each stop offset is at most the next start
offset), with non-negative offsets and durations and every offset below
86400 s, the derived `frame_timings` pairs are non-decreasing in both the
start and the stop component. -/
theorem frame_timings_monotone (l : List (Int × Int))
    (hrng : ∀ p ∈ l, 0 ≤ p.1 ∧ 0 ≤ p.2 ∧ p.1 + p.2 < 86400)
    (hord : List.Chain' (fun a b => a.1 < b.1 ∧ a.1 + a.2 ≤ b.1) l) :
    List.Chain' (fun a b => a.1 ≤ b.1 ∧ a.2 ≤ b.2) (frame_timings l) := by
  induction l with
  | nil => simp [frame_timings]
  | cons a t ih =>
    cases t with
    | nil => simp [frame_timings]
    | cons b t2 =>
      rw [List.chain'_cons] at hord
      obtain ⟨ha1, ha2, ha3⟩ := hrng a (by simp)
      obtain ⟨hb1, hb2, hb3⟩ := hrng b (by simp)
      have hsa : tdSeconds a.1 = a.1 :=
        Int.emod_eq_of_lt ha1 (lt_of_le_of_lt (le_add_of_nonneg_right ha2) ha3)
      have hea : tdSeconds (a.1 + a.2) = a.1 + a.2 :=
        Int.emod_eq_of_lt (add_nonneg ha1 ha2) ha3
      have hsb : tdSeconds b.1 = b.1 :=
        Int.emod_eq_of_lt hb1 (lt_of_le_of_lt (le_add_of_nonneg_right hb2) hb3)
      have heb : tdSeconds (b.1 + b.2) = b.1 + b.2 :=
        Int.emod_eq_of_lt (add_nonneg hb1 hb2) hb3
      have hstep : frame_timings (a :: b :: t2)
          = (tdSeconds a.1, tdSeconds (a.1 + a.2))
            :: frame_timings (b :: t2) := rfl
      have htail : frame_timings (b :: t2)
          = (tdSeconds b.1, tdSeconds (b.1 + b.2)) :: frame_timings t2 := rfl
      rw [hstep, htail]
      refine List.Chain'.cons ?_ ?_
      · exact ⟨by rw [hsa, hsb]; exact le_of_lt hord.1.1,
               by rw [hea, heb]; exact le_trans hord.1.2 (le_add_of_nonneg_right hb2)⟩
      · have hrest := ih (fun p hp => hrng p (List.mem_cons_of_mem a hp)) hord.2
        rw [htail] at hrest
        exact hrest

/-- C8 witness: the amended monotonicity applied to two contiguous
in-range frames `(0, 600)` and `(600, 600)`. -/
theorem frame_timings_monotone_witness :
    List.Chain' (fun a b => a.1 ≤ b.1 ∧ a.2 ≤ b.2)
      (frame_timings [((0 : Int), 600), (600, 600)]) :=
  frame_timings_monotone _ (by decide) (by norm_num [List.chain'_cons])

/-- C1: on the end-to-end static scenario (single frame spanning
`[3000 s, 3600 s]`, tracer fbp, no user SUVr window) the classifier does
not fall back to the fbp default window: the coverage check of line 200
subscripts `suvr_win_def = None` and raises TypeError; only when the
window `[3000, 3600]` is passed explicitly does it produce the `static`
descriptor with full coverage, no warning and the full (single-frame)
range. -/
theorem explore_static_default_window :
    classifySeries [((3000 : ℚ), 3600)] none
        = Except.error (PyErr.typeError "NoneType object is not subscriptable")
      ∧ classifySeries [((3000 : ℚ), 3600)] (some (3000, 3600))
        = Except.ok (some
            { acq := ["static", "suvr"], time := (3000, 3600), idxs := (0, 0),
              coverageWarn := false }) := by
  constructor
  · rfl
  · norm_num [classifySeries, acq_type, breakdyn_t, fulldyn_time, margin, pyMin,
      rabs, pyIndex]

end AmyPET
